import Mathlib

/-!
Shallow embedding of the render core of the `scenery` terminal game
(`src/render/buffer.js`, `src/render/render.js`, and the improved frame
buffer variant): the sparse cell grid with z-index compositing, sprite and
text ingestion with escape-sequence parsing, the diff engine, the batched
emitter, and the frame controller's pacing and lifecycle logic.

JavaScript strings are modelled as lists of characters, JS `Map` objects
keyed by the `"x,y"` strings as association lists keyed by integer pairs
(the key string is injective on integer coordinates, and `Map.set` updates
in place), and JS numbers used as coordinates, z-indices and timestamps as
integers.  A `TypeError` thrown by dereferencing `null` is modelled with
`Except`.
-/

namespace Scenery

/-- A JavaScript string, as a list of characters. -/
abbrev JStr := List Char

/-- A cell of the frame buffer: `{ char, ansi, z }` in the source. -/
structure Cell where
  char : Char
  ansi : JStr
  z : Int
deriving DecidableEq

/-- The sparse frame buffer: `width`, `height` and the `Map` from `"x,y"`
keys to cells (`class Buffer` in `src/render/buffer.js`). -/
structure Buffer where
  width : Int
  height : Int
  cells : List ((Int × Int) × Cell)
deriving DecidableEq

/-- `new Buffer(width, height)`: an empty cell map. -/
def Buffer.empty (width height : Int) : Buffer :=
  ⟨width, height, []⟩

/-- `Map.prototype.set`: replace the value at an existing key in place,
otherwise append the binding at the end. -/
def setEntry : List ((Int × Int) × Cell) → Int × Int → Cell → List ((Int × Int) × Cell)
  | [], k, c => [(k, c)]
  | (k', c') :: rest, k, c =>
    if k' = k then (k, c) :: rest else (k', c') :: setEntry rest k c

/-- `Map.prototype.get`: the value at a key, if present. -/
def lookupEntry : List ((Int × Int) × Cell) → Int × Int → Option Cell
  | [], _ => none
  | (k', c') :: rest, k =>
    if k' = k then some c' else lookupEntry rest k

/-- `Buffer.setCell(x, y, char, ansi, z)`: drop out-of-bounds writes, and
replace the existing cell only if the new z-index is higher or the same. -/
def Buffer.setCell (b : Buffer) (x y : Int) (char : Char) (ansi : JStr) (z : Int) : Buffer :=
  if x < 0 ∨ x ≥ b.width ∨ y < 0 ∨ y ≥ b.height then b
  else
    match lookupEntry b.cells (x, y) with
    | none => { b with cells := setEntry b.cells (x, y) ⟨char, ansi, z⟩ }
    | some existing =>
      if z ≥ existing.z then
        { b with cells := setEntry b.cells (x, y) ⟨char, ansi, z⟩ }
      else b

/-- `Buffer.getCell(x, y)`. -/
def Buffer.getCell (b : Buffer) (x y : Int) : Option Cell :=
  lookupEntry b.cells (x, y)

/-- `Buffer.clear()`. -/
def Buffer.clear (b : Buffer) : Buffer :=
  { b with cells := [] }

/-- `Buffer.setText(x, y, text, ansi, z)`: one `setCell` per character at
columns `x, x+1, …`, skipping columns at or beyond the buffer width. -/
def Buffer.setText : Buffer → Int → Int → JStr → JStr → Int → Buffer
  | b, _, _, [], _, _ => b
  | b, x, y, c :: cs, ansi, z =>
    Buffer.setText (if x < b.width then b.setCell x y c ansi z else b) (x + 1) y cs ansi z

/-- The allow-list of visible block-drawing glyphs of `setSprite`. -/
def isBlockGlyph (c : Char) : Bool :=
  c = '▄' ∨ c = '▀' ∨ c = '█' ∨ c = '▌' ∨ c = '▐' ∨
  c = '░' ∨ c = '▒' ∨ c = '▓' ∨ c = '▔' ∨ c = '▕'

/-- The escape-marker scan of `setSprite`: starting at position `i`, advance
`j` while `line[j] !== 'm'`, take `line.slice(i, j + 1)` as the style token
(the terminator included, or the whole remainder if none) and resume at
`j + 1`.  Returns the token and the remainder of the line. -/
def scanAnsi : List Char → JStr × List Char
  | [] => ([], [])
  | c :: cs =>
    if c = 'm' then ([c], cs)
    else
      let p := scanAnsi cs
      (c :: p.1, p.2)

theorem scanAnsi_rest_length :
    ∀ (c : Char) (cs : List Char), (scanAnsi (c :: cs)).2.length ≤ cs.length := by
  intro c cs
  induction cs generalizing c with
  | nil => by_cases h : c = 'm' <;> simp [scanAnsi, h]
  | cons d ds ih =>
    by_cases h : c = 'm'
    · simp [scanAnsi, h]
    · simp only [scanAnsi, if_neg h]
      exact le_trans (ih d) (Nat.le_succ _)

/-- The inner `while` loop of `setSprite` over one legacy sprite line:
escape markers start a style-token scan, allow-listed glyphs are written at
the advancing column, spaces advance the column silently, and every other
character is ignored without advancing the column. -/
def processLine (z : Int) : List Char → Int → Int → JStr → Buffer → Buffer
  | [], _, _, _, b => b
  | c :: cs, screenX, screenY, currentAnsi, b =>
    if c = '\x1b' then
      let p := scanAnsi (c :: cs)
      processLine z p.2 screenX screenY p.1 b
    else if isBlockGlyph c then
      processLine z cs (screenX + 1) screenY currentAnsi
        (b.setCell screenX screenY c currentAnsi z)
    else if c = ' ' then
      processLine z cs (screenX + 1) screenY currentAnsi b
    else
      processLine z cs screenX screenY currentAnsi b
termination_by l => l.length
decreasing_by
  · have h1 := scanAnsi_rest_length c cs
    simp only [List.length_cons]
    omega
  all_goals simp

/-- The row loop of `setSprite` over a legacy line-based sprite: each row
`spriteY` is parsed with a fresh empty current style at `(x, y + spriteY)`. -/
def setSpriteRows (z x y : Int) : List JStr → Int → Buffer → Buffer
  | [], _, b => b
  | line :: rest, spriteY, b =>
    setSpriteRows z x y rest (spriteY + 1) (processLine z line x (y + spriteY) [] b)

/-- `Buffer.setSprite(x, y, sprite, z)` on a legacy line-based sprite. -/
def Buffer.setSprite (b : Buffer) (x y : Int) (sprite : List JStr) (z : Int) : Buffer :=
  setSpriteRows z x y sprite 0 b

/-- `String.prototype.startsWith`, on character lists. -/
def listStartsWith : List Char → List Char → Bool
  | _, [] => true
  | [], _ :: _ => false
  | c :: cs, p :: ps => c = p && listStartsWith cs ps

/-- `String.prototype.includes`, on character lists. -/
def includes : List Char → List Char → Bool
  | [], pat => listStartsWith [] pat
  | c :: cs, pat => listStartsWith (c :: cs) pat || includes cs pat

/-- The numeric value of a run of decimal digits (`parseInt`). -/
def digitsVal (ds : List Char) : Nat :=
  ds.foldl (fun acc d => acc * 10 + (d.toNat - 48)) 0

/-- Greedy `\d+`: the maximal leading digit run, requiring at least one
digit, with its numeric value and the remainder. -/
def parseDigits (l : List Char) : Option (Nat × List Char) :=
  if l.takeWhile Char.isDigit = [] then none
  else some (digitsVal (l.takeWhile Char.isDigit), l.dropWhile Char.isDigit)

/-- Matching the regular expression `48;2;(\d+);(\d+);(\d+)m` at the start
of a string. -/
def matchBgAt (l : List Char) : Option (Nat × Nat × Nat) :=
  if listStartsWith l ('4' :: '8' :: ';' :: '2' :: ';' :: []) then
    match parseDigits (l.drop 5) with
    | some (r, ';' :: rest2) =>
      match parseDigits rest2 with
      | some (g, ';' :: rest4) =>
        match parseDigits rest4 with
        | some (bb, 'm' :: _) => some (r, g, bb)
        | _ => none
      | _ => none
    | _ => none
  else none

/-- `ansi.match(/48;2;(\d+);(\d+);(\d+)m/)`: the leftmost match of the
background-color pattern, as its three captured components. -/
def bgMatch : List Char → Option (Nat × Nat × Nat)
  | [] => none
  | c :: cs =>
    match matchBgAt (c :: cs) with
    | some t => some t
    | none => bgMatch cs

/-- `Buffer.isBackgroundOnly(ansi)`: a style token that sets a background
color (`48;2;`), sets no foreground color (`38;2;`), and whose background
components are all at most 10 is treated as transparent. -/
def Buffer.isBackgroundOnly (ansi : JStr) : Bool :=
  if ansi = [] then false
  else if includes ansi ('4' :: '8' :: ';' :: '2' :: ';' :: []) &&
          !includes ansi ('3' :: '8' :: ';' :: '2' :: ';' :: []) then
    match bgMatch ansi with
    | some (r, g, bb) => r ≤ 10 && g ≤ 10 && bb ≤ 10
    | none => false
  else false

/-- A record of the pre-decomposed cell-array sprite format:
`{ x, y, char, ansi }`. -/
structure CellRec where
  x : Int
  y : Int
  char : Char
  ansi : JStr
deriving DecidableEq

/-- `Buffer.setCellArray(offsetX, offsetY, cellArray, z)` of the improved
frame buffer: collect the records that are not background-only transparent
pixels, then apply them as `setCell` writes in order. -/
def Buffer.setCellArray (b : Buffer) (offsetX offsetY : Int) (cellArray : List CellRec)
    (z : Int) : Buffer :=
  (cellArray.filter (fun cell => !Buffer.isBackgroundOnly cell.ansi)).foldl
    (fun acc cell => acc.setCell (offsetX + cell.x) (offsetY + cell.y) cell.char cell.ansi z) b

/-- One item written to the terminal by the emitter: either raw text passed
to `term(...)` or a 1-based cursor positioning via `term.moveTo(col, row)`. -/
inductive OutItem where
  | text : JStr → OutItem
  | moveTo : Int → Int → OutItem
deriving DecidableEq

/-- The escape prelude written at the top of `renderDiff`: block cursor
shape, blinking disabled, cursor hidden. -/
def cursorPrelude : JStr :=
  "\x1b[2 q\x1b[?12l\x1b[?25l".data

/-- The style-reset sequence appended after every styled run. -/
def styleReset : JStr :=
  "\x1b[0m".data

/-- The change condition of the diff loop of `renderDiff`: a front entry is
a change when the back grid has no cell at the key or differs in glyph or
style, except that a space glyph with empty style whose coordinate is
unoccupied in the back grid is skipped. -/
def isChange (previous : Buffer) (k : Int × Int) (cell : Cell) : Bool :=
  match lookupEntry previous.cells k with
  | none => !(cell.char = ' ' && cell.ansi = [])
  | some prev => prev.char ≠ cell.char || prev.ansi ≠ cell.ansi

/-- The list of changed front entries collected by the diff loop of
`renderDiff`, in front-grid iteration order. -/
def diffList (current previous : Buffer) : List ((Int × Int) × Cell) :=
  current.cells.filter (fun e => isChange previous e.1 e.2)

/-- A change of one row: the column and the new cell. -/
structure Change where
  x : Int
  cell : Cell
deriving DecidableEq

/-- Append a change to its row's bucket of `changesByRow`, creating the
bucket at the end on first use. -/
def pushRow : List (Int × List Change) → Int → Change → List (Int × List Change)
  | [], y, c => [(y, [c])]
  | (y', cs) :: rest, y, c =>
    if y' = y then (y', cs ++ [c]) :: rest else (y', cs) :: pushRow rest y c

/-- The `changesByRow` map of `renderDiff`: changes grouped by row in
iteration order. -/
def changesByRow (current previous : Buffer) : List (Int × List Change) :=
  (diffList current previous).foldl (fun rows e => pushRow rows e.1.2 ⟨e.1.1, e.2⟩) []

/-- Sorted insertion by row index, modelling `sort((a, b) => a[0] - b[0])`
on the unique row keys. -/
def insertRow (r : Int × List Change) : List (Int × List Change) → List (Int × List Change)
  | [] => [r]
  | r' :: rest => if r.1 ≤ r'.1 then r :: r' :: rest else r' :: insertRow r rest

/-- `sortedRows`: the grouped rows sorted by row index ascending. -/
def sortRows (rows : List (Int × List Change)) : List (Int × List Change) :=
  rows.foldr insertRow []

/-- Sorted insertion by column, modelling `sort((a, b) => a.x - b.x)`. -/
def insertChange (c : Change) : List Change → List Change
  | [] => [c]
  | c' :: rest => if c.x ≤ c'.x then c :: c' :: rest else c' :: insertChange c rest

/-- The per-row column sort of `renderDiff`. -/
def sortChanges (cs : List Change) : List Change :=
  cs.foldr insertChange []

/-- The mutable locals of the per-row batching loop of `renderDiff`:
`currentAnsi`, `currentX`, `batchedChars`, and the output written so far. -/
structure BatchState where
  currentAnsi : JStr
  currentX : Int
  batched : JStr
  out : List OutItem

/-- Flush the pending batch: one `moveTo` at the run's start column plus the
style token, the batched glyphs and a style reset, emitted only when the
batch is nonempty. -/
def flushBatch (y : Int) (st : BatchState) : List OutItem :=
  if st.batched = [] then st.out
  else st.out ++ [OutItem.moveTo (st.currentX + 1) (y + 1),
                  OutItem.text (st.currentAnsi ++ st.batched ++ styleReset)]

/-- One iteration of the batching loop: flush when a batch is open and the
change is not at `currentX + 1` or differs in style, start a new batch when
the batch is empty, and append the glyph. -/
def stepChange (y : Int) (st : BatchState) (change : Change) : BatchState :=
  let st1 :=
    if st.currentX ≠ -1 ∧ (change.x ≠ st.currentX + 1 ∨ change.cell.ansi ≠ st.currentAnsi)
    then { st with out := flushBatch y st, batched := [] }
    else st
  let st2 :=
    if st1.batched = [] then
      { st1 with currentX := change.x, currentAnsi := change.cell.ansi }
    else st1
  { st2 with batched := st2.batched ++ [change.cell.char] }

/-- The output of one row of the batching loop, including the final flush. -/
def emitRow (y : Int) (rowChanges : List Change) : List OutItem :=
  flushBatch y (rowChanges.foldl (stepChange y) ⟨[], -1, [], []⟩)

/-- `renderDiff(current, previous, term)` of the improved frame buffer:
emits the cursor prelude, collects and counts the changes, returns with no
further output when there are none, and otherwise emits each row's batched
runs in sorted order.  Returns the emitted items and the change count. -/
def renderDiff (current previous : Buffer) : List OutItem × Nat :=
  let out0 := [OutItem.text cursorPrelude]
  let changes := diffList current previous
  if changes.length = 0 then (out0, 0)
  else
    (out0 ++ (sortRows (changesByRow current previous)).flatMap
       (fun r => emitRow r.1 (sortChanges r.2)),
     changes.length)

/-- A JavaScript runtime error: dereferencing `null` throws `TypeError`. -/
inductive JsError where
  | typeError : JsError
deriving DecidableEq

/-- The state of the `Render` frame controller (`src/render/render.js`).
After `cleanup()` both buffer references are `null`, modelled as `none`.
The `lastRenderState` cache only ever holds `null` in the source. -/
structure RenderState where
  isInitialized : Bool
  currentBuffer : Option Buffer
  previousBuffer : Option Buffer
  lastRenderTime : Int
  renderSkipThreshold : Int
  minimumRenderInterval : Int
  changeCount : Nat
  totalRenders : Nat
  skipRenderCount : Nat
  forceRenderCount : Nat
  lastRenderState : Option Unit
deriving DecidableEq

namespace Render

/-- The `Render` constructor at terminal dimensions `width × height`: both
grids are `height - 3` rows tall, thresholds are 33 ms and 16 ms. -/
def init (width height : Int) : RenderState :=
  { isInitialized := true
    currentBuffer := some (Buffer.empty width (height - 3))
    previousBuffer := some (Buffer.empty width (height - 3))
    lastRenderTime := 0
    renderSkipThreshold := 33
    minimumRenderInterval := 16
    changeCount := 0
    totalRenders := 0
    skipRenderCount := 0
    forceRenderCount := 0
    lastRenderState := none }

/-- `Render.handleResize()`: allocate fresh grids at the new dimensions and
null the `lastRenderState` cache; no other field is touched. -/
def handleResize (s : RenderState) (width height : Int) : RenderState :=
  { s with
    currentBuffer := some (Buffer.empty width (height - 3))
    previousBuffer := some (Buffer.empty width (height - 3))
    lastRenderState := none }

/-- `Render.clearArea(x, y, width, height, z)`: write a space cell across
the rectangle.  The method has no `isInitialized` guard; as soon as the
loop body runs it reads `this.currentBuffer.width`, which throws a
`TypeError` when the buffer reference is `null`. -/
def clearArea (s : RenderState) (x y width height z : Int) : Except JsError RenderState :=
  if height ≤ 0 ∨ width ≤ 0 then Except.ok s
  else
    match s.currentBuffer with
    | none => Except.error JsError.typeError
    | some b =>
      let b2 := (List.range height.toNat).foldl (fun bRow sy =>
        (List.range width.toNat).foldl (fun bAcc sx =>
          let cellX := x + (sx : Int)
          let cellY := y + (sy : Int)
          if 0 ≤ cellX ∧ cellX < bAcc.width ∧ 0 ≤ cellY ∧ cellY < bAcc.height then
            bAcc.setCell cellX cellY ' ' [] z
          else bAcc) bRow) b
      Except.ok { s with currentBuffer := some b2 }

/-- `Render.renderSprite(x, y, sprite, z)` (legacy sprite payload): no-op
when not initialized, otherwise a `setSprite` on the front grid. -/
def renderSprite (s : RenderState) (x y : Int) (sprite : List JStr) (z : Int) :
    Except JsError RenderState :=
  if !s.isInitialized then Except.ok s
  else
    match s.currentBuffer with
    | none => Except.error JsError.typeError
    | some b => Except.ok { s with currentBuffer := some (b.setSprite x y sprite z) }

/-- `Render.renderText(x, y, text, ansi, z)`: no-op when not initialized or
when the text is empty, otherwise a `setText` on the front grid. -/
def renderText (s : RenderState) (x y : Int) (text : JStr) (ansi : JStr) (z : Int) :
    Except JsError RenderState :=
  if !s.isInitialized || text = [] then Except.ok s
  else
    match s.currentBuffer with
    | none => Except.error JsError.typeError
    | some b => Except.ok { s with currentBuffer := some (b.setText x y text ansi z) }

/-- `Render.renderChar(x, y, char, ansi, z)`: no-op when not initialized,
otherwise a `setCell` on the front grid. -/
def renderChar (s : RenderState) (x y : Int) (char : Char) (ansi : JStr) (z : Int) :
    Except JsError RenderState :=
  if !s.isInitialized then Except.ok s
  else
    match s.currentBuffer with
    | none => Except.error JsError.typeError
    | some b => Except.ok { s with currentBuffer := some (b.setCell x y char ansi z) }

/-- `Render.render()` at wall-clock time `currentTime`: skip (counting the
skip) when the elapsed time since the last render is below the minimum
render interval or the skip threshold; otherwise record the timestamp, run
`renderDiff`, swap the buffers and clear the new front buffer.  Returns the
new state, the change count and the emitted output. -/
def render (s : RenderState) (currentTime : Int) :
    Except JsError (RenderState × Nat × List OutItem) :=
  if !s.isInitialized then Except.ok (s, 0, [])
  else if currentTime - s.lastRenderTime < s.minimumRenderInterval then
    Except.ok ({ s with skipRenderCount := s.skipRenderCount + 1 }, 0, [])
  else if currentTime - s.lastRenderTime < s.renderSkipThreshold then
    Except.ok ({ s with skipRenderCount := s.skipRenderCount + 1 }, 0, [])
  else
    match s.currentBuffer, s.previousBuffer with
    | some cur, some prev =>
      let r := renderDiff cur prev
      Except.ok
        ({ s with
           lastRenderTime := currentTime
           totalRenders := s.totalRenders + 1
           changeCount := s.changeCount + r.2
           previousBuffer := some cur
           currentBuffer := some prev.clear },
         r.2, r.1)
    | _, _ => Except.error JsError.typeError

/-- `Render.cleanup()`: mark uninitialized and release both grids. -/
def cleanup (s : RenderState) : RenderState :=
  { s with
    isInitialized := false
    currentBuffer := none
    previousBuffer := none }

end Render

/-- The spec's notion of a visible difference at one coordinate, amended
with the space-skip of the diff loop: a front cell differs visibly from the
back grid's content when the back grid is unoccupied there (unless the
front cell is a space glyph with empty style), or when the back cell
differs in glyph or in style. -/
def visibleDiff (c : Cell) : Option Cell → Prop
  | none => ¬(c.char = ' ' ∧ c.ansi = [])
  | some p => p.char ≠ c.char ∨ p.ansi ≠ c.ansi

instance (c : Cell) (o : Option Cell) : Decidable (visibleDiff c o) := by
  unfold visibleDiff
  cases o <;> infer_instance

/-- The occupied-key bounds invariant of the spec: every occupied key of a
grid lies within `[0, width) × [0, height)`. -/
def Buffer.inBoundsInv (b : Buffer) : Prop :=
  ∀ e ∈ b.cells, 0 ≤ e.1.1 ∧ e.1.1 < b.width ∧ 0 ≤ e.1.2 ∧ e.1.2 < b.height

instance (b : Buffer) : Decidable b.inBoundsInv := by
  unfold Buffer.inBoundsInv
  infer_instance

/-! ### Lemmas about the association-list cell map -/

theorem lookupEntry_setEntry_self (l : List ((Int × Int) × Cell)) (k : Int × Int) (c : Cell) :
    lookupEntry (setEntry l k c) k = some c := by
  induction l with
  | nil => simp [setEntry, lookupEntry]
  | cons e rest ih =>
    obtain ⟨k', c'⟩ := e
    by_cases h : k' = k
    · simp [setEntry, h, lookupEntry]
    · simp [setEntry, h, lookupEntry, ih]

theorem lookupEntry_setEntry_ne (k k' : Int × Int) (c : Cell) (h : k' ≠ k) :
    ∀ l : List ((Int × Int) × Cell), lookupEntry (setEntry l k c) k' = lookupEntry l k' := by
  intro l
  induction l with
  | nil =>
    simp only [setEntry, lookupEntry]
    rw [if_neg (fun hh : k = k' => h hh.symm)]
  | cons e rest ih =>
    obtain ⟨k0, c0⟩ := e
    by_cases h0 : k0 = k
    · subst h0
      simp only [setEntry, if_pos rfl, lookupEntry]
      rw [if_neg (fun hh : k0 = k' => h hh.symm), if_neg (fun hh : k0 = k' => h hh.symm)]
    · simp only [setEntry, if_neg h0, lookupEntry]
      by_cases h1 : k0 = k'
      · rw [if_pos h1, if_pos h1]
      · rw [if_neg h1, if_neg h1, ih]

theorem mem_setEntry (k : Int × Int) (c : Cell) (e : (Int × Int) × Cell) :
    ∀ l : List ((Int × Int) × Cell), e ∈ setEntry l k c → e = (k, c) ∨ e ∈ l := by
  intro l
  induction l with
  | nil =>
    intro h
    simp only [setEntry, List.mem_singleton] at h
    exact Or.inl h
  | cons e0 rest ih =>
    obtain ⟨k0, c0⟩ := e0
    intro h
    by_cases h0 : k0 = k
    · simp only [setEntry, if_pos h0] at h
      rcases List.mem_cons.mp h with h1 | h1
      · exact Or.inl h1
      · exact Or.inr (List.mem_cons_of_mem _ h1)
    · simp only [setEntry, if_neg h0] at h
      rcases List.mem_cons.mp h with h1 | h1
      · exact Or.inr (h1 ▸ List.mem_cons_self _ _)
      · rcases ih h1 with h2 | h2
        · exact Or.inl h2
        · exact Or.inr (List.mem_cons_of_mem _ h2)

theorem lookupEntry_eq_some_iff_mem (k : Int × Int) (c : Cell) :
    ∀ l : List ((Int × Int) × Cell), (l.map Prod.fst).Nodup →
      (lookupEntry l k = some c ↔ (k, c) ∈ l) := by
  intro l
  induction l with
  | nil => intro _; simp [lookupEntry]
  | cons e rest ih =>
    intro hnd
    obtain ⟨k0, c0⟩ := e
    simp only [List.map_cons, List.nodup_cons] at hnd
    by_cases h : k0 = k
    · subst h
      constructor
      · intro hl
        simp only [lookupEntry, eq_self_iff_true, if_true, Option.some.injEq] at hl
        rw [← hl]
        exact List.mem_cons_self _ _
      · intro hm
        rcases List.mem_cons.mp hm with h1 | h1
        · have hc : c = c0 := congrArg Prod.snd h1
          simp [lookupEntry, hc]
        · exact absurd (List.mem_map_of_mem Prod.fst h1) hnd.1
    · constructor
      · intro hl
        simp only [lookupEntry, if_neg h] at hl
        exact List.mem_cons_of_mem _ ((ih hnd.2).mp hl)
      · intro hm
        rcases List.mem_cons.mp hm with h1 | h1
        · exact absurd (congrArg Prod.fst h1).symm h
        · simp only [lookupEntry, if_neg h]
          exact (ih hnd.2).mpr h1

/-! ### Lemmas about `setCell` -/

theorem setCell_oob (b : Buffer) (x y : Int) (char : Char) (ansi : JStr) (z : Int)
    (h : x < 0 ∨ x ≥ b.width ∨ y < 0 ∨ y ≥ b.height) :
    b.setCell x y char ansi z = b := by
  simp only [Buffer.setCell, if_pos h]

theorem setCell_reject (b : Buffer) (x y : Int) (char : Char) (ansi : JStr) (z : Int) (e : Cell)
    (hb : ¬(x < 0 ∨ x ≥ b.width ∨ y < 0 ∨ y ≥ b.height))
    (he : lookupEntry b.cells (x, y) = some e) (hz : ¬z ≥ e.z) :
    b.setCell x y char ansi z = b := by
  simp only [Buffer.setCell, if_neg hb, he, if_neg hz]

theorem setCell_accept_cells (b : Buffer) (x y : Int) (char : Char) (ansi : JStr) (z : Int)
    (hb : ¬(x < 0 ∨ x ≥ b.width ∨ y < 0 ∨ y ≥ b.height))
    (ha : lookupEntry b.cells (x, y) = none ∨
          ∃ e, lookupEntry b.cells (x, y) = some e ∧ z ≥ e.z) :
    b.setCell x y char ansi z = { b with cells := setEntry b.cells (x, y) ⟨char, ansi, z⟩ } := by
  rcases ha with h | ⟨e, he, hz⟩
  · simp only [Buffer.setCell, if_neg hb, h]
  · simp only [Buffer.setCell, if_neg hb, he, if_pos hz]

/-! ### Claim theorems -/

/-- C3: for every grid and every write of glyph `char`, style `ansi`,
z-index `z` at an in-bounds coordinate `(x, y)`, the write replaces the
existing cell iff the coordinate is unoccupied or `z ≥ existing.z`; equal z
overwrites (last writer wins) and a lower z leaves the grid unchanged; in
particular the write sequence z=0 'A', z=2 'B', z=1 'C' at one coordinate
leaves cell 'B'. -/
theorem C3_setCell_compositing (b : Buffer) (x y : Int) (char : Char) (ansi : JStr) (z : Int)
    (hx0 : 0 ≤ x) (hx : x < b.width) (hy0 : 0 ≤ y) (hy : y < b.height) :
    ((b.getCell x y = none ∨ ∃ e, b.getCell x y = some e ∧ z ≥ e.z) →
       (b.setCell x y char ansi z).getCell x y = some ⟨char, ansi, z⟩)
    ∧ (∀ e, b.getCell x y = some e → z < e.z → b.setCell x y char ansi z = b)
    ∧ ((((Buffer.empty 10 10).setCell 3 3 'A' [] 0).setCell 3 3 'B' [] 2).setCell
         3 3 'C' [] 1).getCell 3 3 = some ⟨'B', [], 2⟩ := by
  have hb : ¬(x < 0 ∨ x ≥ b.width ∨ y < 0 ∨ y ≥ b.height) := by omega
  refine ⟨?_, ?_, by decide⟩
  · intro h
    rw [setCell_accept_cells b x y char ansi z hb h]
    simp only [Buffer.getCell]
    exact lookupEntry_setEntry_self _ _ _
  · intro e he hz
    exact setCell_reject b x y char ansi z e hb he (by omega)

theorem C3_witness :
    (0 : Int) ≤ 1 ∧ (1 : Int) < 5 ∧
    ((Buffer.empty 5 5).setCell 1 1 'A' [] 0).getCell 1 1 = some ⟨'A', [], 0⟩ :=
  ⟨by decide, by decide,
   (C3_setCell_compositing (Buffer.empty 5 5) 1 1 'A' [] 0 (by decide) (by decide)
     (by decide) (by decide)).1 (Or.inl rfl)⟩

/-- C10: a single-cell write mutates at most the targeted coordinate (every
other coordinate reads the same before and after), and a write rejected by
the compositing rule (occupied with a strictly greater z) leaves the whole
grid unchanged. -/
theorem C10_setCell_frame_effect (b : Buffer) (x y : Int) (char : Char) (ansi : JStr) (z : Int) :
    (∀ x' y', (x', y') ≠ (x, y) →
       (b.setCell x y char ansi z).getCell x' y' = b.getCell x' y')
    ∧ (∀ e, b.getCell x y = some e → z < e.z → b.setCell x y char ansi z = b) := by
  constructor
  · intro x' y' hne
    by_cases hb : x < 0 ∨ x ≥ b.width ∨ y < 0 ∨ y ≥ b.height
    · rw [setCell_oob b x y char ansi z hb]
    · rcases hl : lookupEntry b.cells (x, y) with _ | e
      · rw [setCell_accept_cells b x y char ansi z hb (Or.inl hl)]
        simp only [Buffer.getCell]
        exact lookupEntry_setEntry_ne _ _ _ hne _
      · by_cases hz : z ≥ e.z
        · rw [setCell_accept_cells b x y char ansi z hb (Or.inr ⟨e, hl, hz⟩)]
          simp only [Buffer.getCell]
          exact lookupEntry_setEntry_ne _ _ _ hne _
        · rw [setCell_reject b x y char ansi z e hb hl hz]
  · intro e he hz
    by_cases hb : x < 0 ∨ x ≥ b.width ∨ y < 0 ∨ y ≥ b.height
    · exact setCell_oob b x y char ansi z hb
    · exact setCell_reject b x y char ansi z e hb he (by omega)

theorem C10_witness :
    ((2, 2) : Int × Int) ≠ ((1, 1) : Int × Int) ∧
    (((Buffer.empty 4 4).setCell 1 1 'A' [] 5).setCell 1 1 'B' [] 0).getCell 2 2
      = ((Buffer.empty 4 4).setCell 1 1 'A' [] 5).getCell 2 2 ∧
    ((Buffer.empty 4 4).setCell 1 1 'A' [] 5).getCell 1 1 = some ⟨'A', [], 5⟩ ∧
    (0 : Int) < 5 ∧
    ((Buffer.empty 4 4).setCell 1 1 'A' [] 5).setCell 1 1 'B' [] 0
      = (Buffer.empty 4 4).setCell 1 1 'A' [] 5 :=
  ⟨by decide, (C10_setCell_frame_effect _ 1 1 'B' [] 0).1 2 2 (by decide),
   by decide, by decide,
   (C10_setCell_frame_effect _ 1 1 'B' [] 0).2 ⟨'A', [], 5⟩ (by decide) (by decide)⟩

/-! ### Preservation of the bounds invariant -/

theorem setCell_inBoundsInv (b : Buffer) (x y : Int) (char : Char) (ansi : JStr) (z : Int)
    (h : b.inBoundsInv) : (b.setCell x y char ansi z).inBoundsInv := by
  by_cases hb : x < 0 ∨ x ≥ b.width ∨ y < 0 ∨ y ≥ b.height
  · rw [setCell_oob b x y char ansi z hb]
    exact h
  · have hset : ∀ e ∈ setEntry b.cells (x, y) ⟨char, ansi, z⟩,
        0 ≤ e.1.1 ∧ e.1.1 < b.width ∧ 0 ≤ e.1.2 ∧ e.1.2 < b.height := by
      intro e he
      rcases mem_setEntry _ _ _ _ he with h1 | h1
      · rw [h1]
        show 0 ≤ x ∧ x < b.width ∧ 0 ≤ y ∧ y < b.height
        omega
      · exact h e h1
    rcases hl : lookupEntry b.cells (x, y) with _ | e
    · rw [setCell_accept_cells b x y char ansi z hb (Or.inl hl)]
      exact hset
    · by_cases hz : z ≥ e.z
      · rw [setCell_accept_cells b x y char ansi z hb (Or.inr ⟨e, hl, hz⟩)]
        exact hset
      · rw [setCell_reject b x y char ansi z e hb hl hz]
        exact h

theorem setText_inBoundsInv :
    ∀ (text : JStr) (b : Buffer) (x y : Int) (ansi : JStr) (z : Int),
      b.inBoundsInv → (b.setText x y text ansi z).inBoundsInv := by
  intro text
  induction text with
  | nil =>
    intro b x y ansi z h
    simpa [Buffer.setText] using h
  | cons c cs ih =>
    intro b x y ansi z h
    simp only [Buffer.setText]
    apply ih
    by_cases hx : x < b.width
    · rw [if_pos hx]
      exact setCell_inBoundsInv b x y c ansi z h
    · rw [if_neg hx]
      exact h

theorem processLine_inBoundsInv (z : Int) :
    ∀ (n : Nat) (l : List Char), l.length ≤ n → ∀ (sx sy : Int) (ansi : JStr) (b : Buffer),
      b.inBoundsInv → (processLine z l sx sy ansi b).inBoundsInv := by
  intro n
  induction n with
  | zero =>
    intro l hl sx sy ansi b h
    have : l = [] := List.length_eq_zero.mp (Nat.le_zero.mp hl)
    rw [this]
    simpa [processLine] using h
  | succ n ih =>
    intro l hl sx sy ansi b h
    cases l with
    | nil => simpa [processLine] using h
    | cons c cs =>
      have hcs : cs.length ≤ n := by
        simp only [List.length_cons] at hl
        omega
      simp only [processLine]
      by_cases hc : c = '\x1b'
      · rw [if_pos hc]
        exact ih _ (le_trans (scanAnsi_rest_length c cs) hcs) _ _ _ _ h
      · rw [if_neg hc]
        by_cases hg : isBlockGlyph c = true
        · rw [if_pos hg]
          exact ih _ hcs _ _ _ _ (setCell_inBoundsInv b sx sy c ansi z h)
        · rw [if_neg hg]
          by_cases hsp : c = ' '
          · rw [if_pos hsp]
            exact ih _ hcs _ _ _ _ h
          · rw [if_neg hsp]
            exact ih _ hcs _ _ _ _ h

theorem setSpriteRows_inBoundsInv (z x y : Int) :
    ∀ (rows : List JStr) (sy : Int) (b : Buffer),
      b.inBoundsInv → (setSpriteRows z x y rows sy b).inBoundsInv := by
  intro rows
  induction rows with
  | nil =>
    intro sy b h
    simpa [setSpriteRows] using h
  | cons line rest ih =>
    intro sy b h
    simp only [setSpriteRows]
    exact ih _ _ (processLine_inBoundsInv z line.length line le_rfl x (y + sy) [] b h)

theorem foldl_setCell_inBoundsInv (ox oy z : Int) :
    ∀ (l : List CellRec) (b : Buffer), b.inBoundsInv →
      (l.foldl (fun acc cell =>
        acc.setCell (ox + cell.x) (oy + cell.y) cell.char cell.ansi z) b).inBoundsInv := by
  intro l
  induction l with
  | nil => intro b h; exact h
  | cons cell rest ih =>
    intro b h
    simp only [List.foldl_cons]
    exact ih _ (setCell_inBoundsInv b _ _ _ _ _ h)

/-- C8: every occupied key of a grid stays within `[0, width) × [0, height)`
under every write operation, a fresh or cleared grid satisfies the
invariant, and an out-of-bounds `setCell` is dropped as a no-op. -/
theorem C8_bounds_invariant :
    (∀ (b : Buffer) (x y : Int) (char : Char) (ansi : JStr) (z : Int),
       b.inBoundsInv → (b.setCell x y char ansi z).inBoundsInv)
    ∧ (∀ (b : Buffer) (x y : Int) (char : Char) (ansi : JStr) (z : Int),
       (x < 0 ∨ x ≥ b.width ∨ y < 0 ∨ y ≥ b.height) → b.setCell x y char ansi z = b)
    ∧ (∀ (b : Buffer) (x y : Int) (text ansi : JStr) (z : Int),
       b.inBoundsInv → (b.setText x y text ansi z).inBoundsInv)
    ∧ (∀ (b : Buffer) (x y : Int) (sprite : List JStr) (z : Int),
       b.inBoundsInv → (b.setSprite x y sprite z).inBoundsInv)
    ∧ (∀ (b : Buffer) (ox oy : Int) (arr : List CellRec) (z : Int),
       b.inBoundsInv → (b.setCellArray ox oy arr z).inBoundsInv)
    ∧ (∀ b : Buffer, b.clear.inBoundsInv)
    ∧ (∀ w h : Int, (Buffer.empty w h).inBoundsInv) :=
  ⟨fun b x y char ansi z h => setCell_inBoundsInv b x y char ansi z h,
   fun b x y char ansi z h => setCell_oob b x y char ansi z h,
   fun b x y text ansi z h => setText_inBoundsInv text b x y ansi z h,
   fun b x y sprite z h => setSpriteRows_inBoundsInv z x y sprite 0 b h,
   fun b ox oy _arr z h => foldl_setCell_inBoundsInv ox oy z _ b h,
   fun _ _ he => absurd he (List.not_mem_nil _),
   fun _ _ _ he => absurd he (List.not_mem_nil _)⟩

theorem C8_witness :
    (Buffer.empty 4 4).inBoundsInv
    ∧ ((Buffer.empty 4 4).setCell 0 0 'A' [] 0).inBoundsInv
    ∧ (Buffer.empty 4 4).setCell 7 9 'A' [] 0 = Buffer.empty 4 4 :=
  ⟨by decide,
   C8_bounds_invariant.1 (Buffer.empty 4 4) 0 0 'A' [] 0 (by decide),
   C8_bounds_invariant.2.1 (Buffer.empty 4 4) 7 9 'A' [] 0 (by decide)⟩

/-! ### The diff engine -/

theorem isChange_eq_true_iff (previous : Buffer) (k : Int × Int) (c : Cell) :
    isChange previous k c = true ↔ visibleDiff c (lookupEntry previous.cells k) := by
  cases hp : lookupEntry previous.cells k with
  | none =>
    simp only [isChange, visibleDiff, hp]
    constructor
    · intro h
      simp at h
      tauto
    · intro h
      simp
      tauto
  | some p => simp [isChange, visibleDiff, hp]

/-- C4 (amended): under unique front keys, the diff contains `(k, c)` iff
the front grid holds `c` at `k` and `c` differs visibly from the back
grid's content at `k` — absence in the back counts as a difference except
for a space glyph with empty style, and z-only differences are excluded —
and the diff of a grid against itself is empty. -/
theorem C4_diff_membership (F B : Buffer) (hF : (F.cells.map Prod.fst).Nodup) :
    (∀ (k : Int × Int) (c : Cell),
       (k, c) ∈ diffList F B ↔
         F.getCell k.1 k.2 = some c ∧ visibleDiff c (B.getCell k.1 k.2))
    ∧ diffList F F = [] := by
  constructor
  · intro k c
    unfold diffList Buffer.getCell
    rw [List.mem_filter]
    constructor
    · rintro ⟨hm, hc⟩
      exact ⟨(lookupEntry_eq_some_iff_mem k c F.cells hF).mpr hm,
             (isChange_eq_true_iff B k c).mp hc⟩
    · rintro ⟨hl, hv⟩
      exact ⟨(lookupEntry_eq_some_iff_mem k c F.cells hF).mp hl,
             (isChange_eq_true_iff B k c).mpr hv⟩
  · unfold diffList
    apply List.filter_eq_nil_iff.mpr
    intro e he
    obtain ⟨k, c⟩ := e
    have hl : lookupEntry F.cells k = some c :=
      (lookupEntry_eq_some_iff_mem k c F.cells hF).mpr he
    simp [isChange, hl]

theorem C4_counterexample :
    ((Buffer.empty 10 10).setCell 0 0 ' ' [] 0).getCell 0 0 = some ⟨' ', [], 0⟩
    ∧ (Buffer.empty 10 10).getCell 0 0 = none
    ∧ diffList ((Buffer.empty 10 10).setCell 0 0 ' ' [] 0) (Buffer.empty 10 10) = [] :=
  ⟨rfl, rfl, rfl⟩

theorem C4_witness :
    ((((Buffer.empty 3 3).setCell 0 0 'X' [] 0).cells.map Prod.fst).Nodup)
    ∧ ((((0, 0) : Int × Int), (⟨'X', [], 0⟩ : Cell)) ∈
         diffList ((Buffer.empty 3 3).setCell 0 0 'X' [] 0) (Buffer.empty 3 3) ↔
       ((Buffer.empty 3 3).setCell 0 0 'X' [] 0).getCell 0 0 = some ⟨'X', [], 0⟩
       ∧ visibleDiff ⟨'X', [], 0⟩ ((Buffer.empty 3 3).getCell 0 0)) :=
  ⟨by decide,
   (C4_diff_membership ((Buffer.empty 3 3).setCell 0 0 'X' [] 0) (Buffer.empty 3 3)
     (by decide)).1 (0, 0) ⟨'X', [], 0⟩⟩

/-- C1 (amended): a render tick whose diff is empty (every front cell
matches the back grid's cell in glyph and style) emits exactly the fixed
cursor-setup prelude and nothing else — no cursor movement and no per-cell
output — and reports zero changes. -/
theorem C1_empty_diff_prelude_only (current previous : Buffer)
    (h : ∀ e ∈ current.cells, ∃ p, lookupEntry previous.cells e.1 = some p ∧
           p.char = e.2.char ∧ p.ansi = e.2.ansi) :
    renderDiff current previous = ([OutItem.text cursorPrelude], 0) := by
  have hd : diffList current previous = [] := by
    unfold diffList
    apply List.filter_eq_nil_iff.mpr
    intro e he
    obtain ⟨p, hp, h1, h2⟩ := h e he
    simp [isChange, hp, h1, h2]
  simp [renderDiff, hd]

theorem C1_counterexample :
    renderDiff (Buffer.empty 4 4) (Buffer.empty 4 4) = ([OutItem.text cursorPrelude], 0)
    ∧ cursorPrelude ≠ [] :=
  ⟨rfl, by decide⟩

theorem C1_witness :
    (∀ e ∈ ((Buffer.empty 4 4).setCell 1 1 '█' [] 5).cells,
       ∃ p, lookupEntry ((Buffer.empty 4 4).setCell 1 1 '█' [] 2).cells e.1 = some p ∧
         p.char = e.2.char ∧ p.ansi = e.2.ansi)
    ∧ renderDiff ((Buffer.empty 4 4).setCell 1 1 '█' [] 5)
        ((Buffer.empty 4 4).setCell 1 1 '█' [] 2) = ([OutItem.text cursorPrelude], 0) :=
  ⟨by
     intro e he
     have hc : ((Buffer.empty 4 4).setCell 1 1 '█' [] 5).cells
         = [(((1 : Int), (1 : Int)), (⟨'█', [], 5⟩ : Cell))] := rfl
     rw [hc, List.mem_singleton] at he
     rw [he]
     exact ⟨⟨'█', [], 2⟩, rfl, rfl, rfl⟩,
   C1_empty_diff_prelude_only _ _ (by
     intro e he
     have hc : ((Buffer.empty 4 4).setCell 1 1 '█' [] 5).cells
         = [(((1 : Int), (1 : Int)), (⟨'█', [], 5⟩ : Cell))] := rfl
     rw [hc, List.mem_singleton] at he
     rw [he]
     exact ⟨⟨'█', [], 2⟩, rfl, rfl, rfl⟩)⟩

/-- C2: evaluating the batched emitter on row-2 changes at columns 5, 6, 7
with one style and column 9 with another, against an empty back grid, shows
the run partition the code actually produces: the flush condition compares
the next column against the run's start column plus one (`currentX` is
never advanced inside a run), so the changes split into three runs
([5,6], [7], [9]) — three `moveTo`/text pairs — not the two runs ([5-7],
[9]) the claim describes. -/
theorem C2_run_batching_three_runs :
    (renderDiff
       (((((Buffer.empty 20 5).setCell 5 2 '█' "\x1b[38;2;1;2;3m".data 0).setCell
           6 2 '█' "\x1b[38;2;1;2;3m".data 0).setCell
           7 2 '█' "\x1b[38;2;1;2;3m".data 0).setCell
           9 2 '█' "\x1b[38;2;9;9;9m".data 0)
       (Buffer.empty 20 5)).1
      = [OutItem.text cursorPrelude,
         OutItem.moveTo 6 3, OutItem.text "\x1b[38;2;1;2;3m██\x1b[0m".data,
         OutItem.moveTo 8 3, OutItem.text "\x1b[38;2;1;2;3m█\x1b[0m".data,
         OutItem.moveTo 10 3, OutItem.text "\x1b[38;2;9;9;9m█\x1b[0m".data]
    ∧ ((renderDiff
       (((((Buffer.empty 20 5).setCell 5 2 '█' "\x1b[38;2;1;2;3m".data 0).setCell
           6 2 '█' "\x1b[38;2;1;2;3m".data 0).setCell
           7 2 '█' "\x1b[38;2;1;2;3m".data 0).setCell
           9 2 '█' "\x1b[38;2;9;9;9m".data 0)
       (Buffer.empty 20 5)).1.countP fun i =>
         match i with
         | OutItem.moveTo _ _ => true
         | _ => false) = 3 :=
  ⟨rfl, rfl⟩

/-- C5: a cell-array record whose style token sets a background color, no
foreground color, and a near-black background produces no grid write; a
record whose token fails that test is written through `setCell` normally;
and the transparency test holds exactly when the token contains `48;2;`,
does not contain `38;2;`, and its matched background components are all at
most 10. -/
theorem C5_transparency_skip (b : Buffer) (ox oy z : Int) (cell : CellRec) :
    (Buffer.isBackgroundOnly cell.ansi = true → b.setCellArray ox oy [cell] z = b)
    ∧ (Buffer.isBackgroundOnly cell.ansi = false →
        b.setCellArray ox oy [cell] z
          = b.setCell (ox + cell.x) (oy + cell.y) cell.char cell.ansi z)
    ∧ (Buffer.isBackgroundOnly cell.ansi = true ↔
        includes cell.ansi ('4' :: '8' :: ';' :: '2' :: ';' :: []) = true
        ∧ includes cell.ansi ('3' :: '8' :: ';' :: '2' :: ';' :: []) = false
        ∧ ∃ r g bb, bgMatch cell.ansi = some (r, g, bb) ∧ r ≤ 10 ∧ g ≤ 10 ∧ bb ≤ 10) := by
  refine ⟨?_, ?_, ?_⟩
  · intro h
    simp [Buffer.setCellArray, List.filter_cons, h]
  · intro h
    simp [Buffer.setCellArray, List.filter_cons, h]
  · unfold Buffer.isBackgroundOnly
    by_cases h0 : cell.ansi = []
    · rw [if_pos h0]
      simp [h0, includes, listStartsWith]
    · rw [if_neg h0]
      by_cases h1 : (includes cell.ansi ('4' :: '8' :: ';' :: '2' :: ';' :: []) &&
          !includes cell.ansi ('3' :: '8' :: ';' :: '2' :: ';' :: [])) = true
      · rw [if_pos h1]
        rw [Bool.and_eq_true, Bool.not_eq_true'] at h1
        cases hm : bgMatch cell.ansi with
        | none => simp [h1, hm]
        | some t =>
          obtain ⟨r, g, bb⟩ := t
          simp only [hm, Option.some.injEq, Prod.mk.injEq]
          constructor
          · intro hle
            simp only [Bool.and_eq_true, decide_eq_true_eq] at hle
            exact ⟨h1.1, h1.2, r, g, bb, ⟨rfl, rfl, rfl⟩, hle.1.1, hle.1.2, hle.2⟩
          · rintro ⟨-, -, r', g', bb', ⟨hr, hg, hb⟩, hr10, hg10, hb10⟩
            simp only [Bool.and_eq_true, decide_eq_true_eq]
            exact ⟨⟨hr ▸ hr10, hg ▸ hg10⟩, hb ▸ hb10⟩
      · rw [if_neg h1]
        rw [Bool.and_eq_true, Bool.not_eq_true'] at h1
        constructor
        · intro hh
          exact absurd hh (by simp)
        · rintro ⟨hbg, hfg, -⟩
          exact absurd ⟨hbg, hfg⟩ h1

theorem C5_witness :
    Buffer.isBackgroundOnly "\x1b[48;2;0;0;0m".data = true
    ∧ (Buffer.empty 5 5).setCellArray 0 0 [⟨0, 0, '█', "\x1b[48;2;0;0;0m".data⟩] 0
        = Buffer.empty 5 5
    ∧ Buffer.isBackgroundOnly "\x1b[48;2;200;10;10m".data = false
    ∧ (Buffer.empty 5 5).setCellArray 0 0 [⟨0, 0, '█', "\x1b[48;2;200;10;10m".data⟩] 0
        = (Buffer.empty 5 5).setCell 0 0 '█' "\x1b[48;2;200;10;10m".data 0 :=
  ⟨by decide,
   (C5_transparency_skip (Buffer.empty 5 5) 0 0 0 ⟨0, 0, '█', "\x1b[48;2;0;0;0m".data⟩).1
     (by decide),
   by decide,
   (C5_transparency_skip (Buffer.empty 5 5) 0 0 0
     ⟨0, 0, '█', "\x1b[48;2;200;10;10m".data⟩).2.1 (by decide)⟩

/-- C6 (amended): after a resize the Frame Controller discards both grids,
allocates fresh grids at the new width and `height - 3`, and nulls its
`lastRenderState` cache — but it leaves `lastRenderTime` untouched, so a
render tick arriving within the minimum render interval of the previous
render is still skipped. -/
theorem C6_handleResize_no_time_reset (s : RenderState) (width height t : Int)
    (hinit : s.isInitialized = true)
    (ht : t - s.lastRenderTime < s.minimumRenderInterval) :
    (Render.handleResize s width height).currentBuffer = some (Buffer.empty width (height - 3))
    ∧ (Render.handleResize s width height).previousBuffer
        = some (Buffer.empty width (height - 3))
    ∧ (Render.handleResize s width height).lastRenderState = none
    ∧ (Render.handleResize s width height).lastRenderTime = s.lastRenderTime
    ∧ Render.render (Render.handleResize s width height) t
        = Except.ok ({ Render.handleResize s width height with
                       skipRenderCount := s.skipRenderCount + 1 }, 0, []) := by
  refine ⟨rfl, rfl, rfl, rfl, ?_⟩
  simp only [Render.render, Render.handleResize, hinit, Bool.not_true]
  rw [if_neg (by simp), if_pos ht]

theorem C6_counterexample :
    Render.render
      (Render.handleResize { Render.init 80 24 with lastRenderTime := 1000 } 100 30) 1005
      = Except.ok
          ({ Render.handleResize { Render.init 80 24 with lastRenderTime := 1000 } 100 30 with
             skipRenderCount := 1 }, 0, []) :=
  rfl

theorem C6_witness :
    ({ Render.init 80 24 with lastRenderTime := 1000 } : RenderState).isInitialized = true
    ∧ (1005 : Int) -
        ({ Render.init 80 24 with lastRenderTime := 1000 } : RenderState).lastRenderTime <
        ({ Render.init 80 24 with lastRenderTime := 1000 } : RenderState).minimumRenderInterval
    ∧ Render.render
        (Render.handleResize { Render.init 80 24 with lastRenderTime := 1000 } 100 30) 1005
        = Except.ok
            ({ Render.handleResize { Render.init 80 24 with lastRenderTime := 1000 } 100 30 with
               skipRenderCount := 1 }, 0, []) :=
  ⟨rfl, by decide,
   (C6_handleResize_no_time_reset { Render.init 80 24 with lastRenderTime := 1000 }
     100 30 1005 rfl (by decide)).2.2.2.2⟩

/-- C7: after `cleanup()` the guarded draw calls (`renderSprite`,
`renderText`, `renderChar`) are error-free no-ops and cleanup is
idempotent, but `clearArea` — which lacks the `isInitialized` guard —
dereferences the released (`null`) front buffer and throws a `TypeError`
on any rectangle with positive width and height, contradicting the claim
that every draw call against a released controller is a harmless no-op. -/
theorem C7_draw_after_cleanup :
    Render.clearArea (Render.cleanup (Render.init 80 24)) 0 0 1 1 0
      = Except.error JsError.typeError
    ∧ (∀ (s : RenderState) (x y : Int) (sprite : List JStr) (z : Int),
        Render.renderSprite (Render.cleanup s) x y sprite z = Except.ok (Render.cleanup s))
    ∧ (∀ (s : RenderState) (x y : Int) (text ansi : JStr) (z : Int),
        Render.renderText (Render.cleanup s) x y text ansi z = Except.ok (Render.cleanup s))
    ∧ (∀ (s : RenderState) (x y : Int) (char : Char) (ansi : JStr) (z : Int),
        Render.renderChar (Render.cleanup s) x y char ansi z = Except.ok (Render.cleanup s))
    ∧ (∀ s : RenderState, Render.cleanup (Render.cleanup s) = Render.cleanup s) :=
  ⟨rfl,
   fun _ _ _ _ _ => rfl,
   fun _ _ _ _ _ _ => rfl,
   fun _ _ _ _ _ _ => rfl,
   fun _ => rfl⟩

/-! ### The style parser on unterminated escape sequences -/

theorem scanAnsi_no_m : ∀ l : List Char, 'm' ∉ l → scanAnsi l = (l, []) := by
  intro l
  induction l with
  | nil => intro _; rfl
  | cons c cs ih =>
    intro h
    have hc : c ≠ 'm' := fun hh => h (hh ▸ List.mem_cons_self _ _)
    have hcs : 'm' ∉ cs := fun hh => h (List.mem_cons_of_mem _ hh)
    simp only [scanAnsi, if_neg (fun hh : c = 'm' => hc hh), ih hcs]

theorem scanAnsi_append_mem :
    ∀ l : List Char, 'm' ∈ l → ∀ l2 : List Char,
      scanAnsi (l ++ l2) = ((scanAnsi l).1, (scanAnsi l).2 ++ l2) := by
  intro l
  induction l with
  | nil => intro h; exact absurd h (List.not_mem_nil _)
  | cons c cs ih =>
    intro h l2
    by_cases hc : c = 'm'
    · simp only [List.cons_append, scanAnsi, if_pos hc, List.append_eq]
    · have hcs : 'm' ∈ cs := by
        rcases List.mem_cons.mp h with h1 | h1
        · exact absurd h1.symm hc
        · exact h1
      simp only [List.cons_append, scanAnsi, if_neg hc, List.append_eq, ih hcs l2]

theorem processLine_esc_no_m (z : Int) (rest : List Char) (hm : 'm' ∉ rest)
    (sx sy : Int) (ansi : JStr) (b : Buffer) :
    processLine z ('\x1b' :: rest) sx sy ansi b = b := by
  have hnom : 'm' ∉ '\x1b' :: rest := by
    intro hmem
    rcases List.mem_cons.mp hmem with h | h
    · exact absurd h (by decide)
    · exact hm h
  simp only [processLine, eq_self_iff_true, if_true]
  rw [scanAnsi_no_m _ hnom]
  simp only [processLine]

theorem processLine_unterminated (z : Int) (rest : List Char) (hm : 'm' ∉ rest) :
    ∀ (n : Nat) (pre : List Char), pre.length ≤ n →
      ∀ (sx sy : Int) (ansi : JStr) (b : Buffer),
        processLine z (pre ++ '\x1b' :: rest) sx sy ansi b
          = processLine z pre sx sy ansi b := by
  intro n
  induction n with
  | zero =>
    intro pre hp sx sy ansi b
    have hpre : pre = [] := List.length_eq_zero.mp (Nat.le_zero.mp hp)
    subst hpre
    rw [List.nil_append, processLine_esc_no_m z rest hm]
    simp only [processLine]
  | succ n ih =>
    intro pre hp sx sy ansi b
    cases pre with
    | nil =>
      rw [List.nil_append, processLine_esc_no_m z rest hm]
      simp only [processLine]
    | cons c cs =>
      have hcs : cs.length ≤ n := by
        simp only [List.length_cons] at hp
        omega
      simp only [List.cons_append, processLine]
      by_cases hc : c = '\x1b'
      · rw [if_pos hc, if_pos hc]
        subst hc
        by_cases hmem : 'm' ∈ '\x1b' :: cs
        · rw [← List.cons_append, scanAnsi_append_mem ('\x1b' :: cs) hmem ('\x1b' :: rest)]
          exact ih _ (le_trans (scanAnsi_rest_length _ _) hcs) sx sy _ b
        · have hnoml : 'm' ∉ ('\x1b' :: (cs ++ '\x1b' :: rest)) := by
            intro h
            rcases List.mem_cons.mp h with h1 | h1
            · exact absurd h1 (by decide)
            · rcases List.mem_append.mp h1 with h2 | h2
              · exact hmem (List.mem_cons_of_mem _ h2)
              · rcases List.mem_cons.mp h2 with h3 | h3
                · exact absurd h3 (by decide)
                · exact hm h3
          rw [scanAnsi_no_m _ hnoml, scanAnsi_no_m _ hmem]
          simp only [processLine]
      · rw [if_neg hc, if_neg hc]
        by_cases hg : isBlockGlyph c = true
        · rw [if_pos hg, if_pos hg]
          exact ih cs hcs _ _ _ _
        · rw [if_neg hg, if_neg hg]
          by_cases hs : c = ' '
          · rw [if_pos hs, if_pos hs]
            exact ih cs hcs _ _ _ _
          · rw [if_neg hs, if_neg hs]
            exact ih cs hcs _ _ _ _

theorem setSpriteRows_set_unterminated (z x y : Int) :
    ∀ (rows : List JStr) (k : Nat) (pre rest : JStr),
      rows.get? k = some (pre ++ '\x1b' :: rest) → 'm' ∉ rest →
      ∀ (sy : Int) (b : Buffer),
        setSpriteRows z x y rows sy b = setSpriteRows z x y (rows.set k pre) sy b := by
  intro rows
  induction rows with
  | nil =>
    intro k pre rest hk
    simp at hk
  | cons line rs ih =>
    intro k pre rest hk hm sy b
    cases k with
    | zero =>
      simp only [List.get?_cons_zero, Option.some.injEq] at hk
      subst hk
      simp only [List.set_cons_zero, setSpriteRows]
      rw [processLine_unterminated z rest hm pre.length pre le_rfl]
    | succ k2 =>
      simp only [List.get?_cons_succ] at hk
      simp only [List.set_cons_succ, setSpriteRows]
      exact ih k2 pre rest hk hm (sy + 1) (processLine z line x (y + sy) [] b)

/-- C9: a legacy sprite row containing an escape marker with no terminator
before the end of the line contributes exactly the glyphs parsed before the
marker — the remainder of the row is absorbed into the style token and
emits nothing — and every other row of the sprite is parsed and written
exactly as if the malformed tail were absent. -/
theorem C9_unterminated_escape (b : Buffer) (x y z : Int) (rows : List JStr) (k : Nat)
    (pre rest : JStr) (hk : rows.get? k = some (pre ++ '\x1b' :: rest)) (hm : 'm' ∉ rest) :
    b.setSprite x y rows z = b.setSprite x y (rows.set k pre) z := by
  unfold Buffer.setSprite
  exact setSpriteRows_set_unterminated z x y rows k pre rest hk hm 0 b

theorem C9_witness :
    ([['█'], ['▀', '\x1b', '[', '4'], ['▄']] : List JStr).get? 1
      = some (['▀'] ++ '\x1b' :: ['[', '4'])
    ∧ 'm' ∉ (['[', '4'] : List Char)
    ∧ (Buffer.empty 10 10).setSprite 0 0 [['█'], ['▀', '\x1b', '[', '4'], ['▄']] 0
        = (Buffer.empty 10 10).setSprite 0 0
            (([['█'], ['▀', '\x1b', '[', '4'], ['▄']] : List JStr).set 1 ['▀']) 0 :=
  ⟨rfl, by decide,
   C9_unterminated_escape (Buffer.empty 10 10) 0 0 0 [['█'], ['▀', '\x1b', '[', '4'], ['▄']]
     1 ['▀'] ['[', '4'] rfl (by decide)⟩

end Scenery
